import Mathlib

/-!
Verification of the Vencord webpack module-discovery layer
(src/webpack/webpack.ts of this repository) against its specification.

The embedding models JavaScript values shallowly: an inductive `JSVal`
covers the non-callable values the search operations inspect, while
caller-supplied functions (filters, callbacks, parsers) are passed as Lean
functions through the `JsArg` wrapper, whose `notFn` constructor stands for
an argument whose `typeof` is not "function".  The webpack module cache is
an association list in registry iteration order; mutation-free state
passing replaces the file's module-level mutable state.
-/

namespace Vencord

/-- Model of the JavaScript values the search layer inspects: primitives and
plain objects (association lists of own properties, in insertion order).
Function values never appear here; they enter through `JsArg.fn`. -/
inductive JSVal : Type where
  | undefinedVal : JSVal
  | null : JSVal
  | boolVal : Bool → JSVal
  | numVal : Int → JSVal
  | strVal : String → JSVal
  | obj : List (String × JSVal) → JSVal

/-- JavaScript truthiness of a modelled value (`if (v)`): undefined, null,
false, 0 and the empty string are falsy, every object is truthy. -/
def truthy : JSVal → Bool
  | .undefinedVal => false
  | .null => false
  | .boolVal b => b
  | .numVal n => n != 0
  | .strVal s => !s.isEmpty
  | .obj _ => true

/-- JavaScript `typeof` for the modelled (non-callable) values. -/
def jsTypeof : JSVal → String
  | .undefinedVal => "undefined"
  | .null => "object"
  | .boolVal _ => "boolean"
  | .numVal _ => "number"
  | .strVal _ => "string"
  | .obj _ => "object"

/-- Property read `v[name]` on a modelled value: the named own property of an
object, undefined on everything else (primitive property reads that matter
to this code, such as `.default` on a number, yield undefined). -/
def getField (v : JSVal) (name : String) : JSVal :=
  match v with
  | .obj fields =>
    match fields.lookup name with
    | some x => x
    | none => .undefinedVal
  | _ => .undefinedVal

/-- Optional-chained property read `v?.[name]`: undefined when `v` is
nullish, otherwise an ordinary property read. -/
def optGet (v : JSVal) (name : String) : JSVal :=
  match v with
  | .undefinedVal => .undefinedVal
  | .null => .undefinedVal
  | _ => getField v name

/-- Discriminator for the undefined value (`x !== void 0` is its negation). -/
def isUndefinedVal : JSVal → Bool
  | .undefinedVal => true
  | _ => false

/-- String truthiness (JS strings are falsy exactly when empty). -/
def truthyStr (s : String) : Bool := !s.isEmpty

/-- Whether `p` is a prefix of `s`, on character lists. -/
def charPrefix : List Char → List Char → Bool
  | [], _ => true
  | _ :: _, [] => false
  | a :: as, b :: bs => a == b && charPrefix as bs

/-- Whether `c` occurs as a contiguous run inside `s`, on character
lists. -/
def charContains : List Char → List Char → Bool
  | s, c =>
    charPrefix c s ||
      match s with
      | [] => false
      | _ :: rest => charContains rest c

/-- JavaScript `s.includes(c)`: substring containment, true for the empty
needle. -/
def jsIncludes (s c : String) : Bool :=
  charContains s.toList c.toList

/-- Build flags of a running session: `IS_DEV` selects the strict
development build, `devToolsOpen` suppresses the strict throws while the
devtools are open. -/
structure Mode : Type where
  isDev : Bool
  devToolsOpen : Bool

/-- The resilient production configuration (`IS_DEV` false). -/
def resilientMode : Mode := ⟨false, false⟩

/-- The strict development configuration with devtools closed, in which
not-found conditions throw. -/
def strictMode : Mode := ⟨true, false⟩

/-- Exceptions the embedded operations can raise. -/
inductive JSErr : Type where
  | invalidArg (msg : String)
  | notFound (method : String)
  | typeError (msg : String)
  | thrownString (msg : String)
  | bulkMismatch (asked found : Nat)
  | extractThrow (msg : String)

/-- An argument slot of a search entry point: either a genuine function
(modelled by a Lean function) or a non-function value, for which
`typeof arg !== "function"` holds. -/
inductive JsArg (α : Type) : Type where
  | fn : α → JsArg α
  | notFn : JSVal → JsArg α

/-- Message of the invalid-filter throw
(`"Invalid filter. Expected a function got " + typeof filter`). -/
def invalidFilterMsg (v : JSVal) : String :=
  "Invalid filter. Expected a function got " ++ jsTypeof v

/-- Message of the invalid-callback throw. -/
def invalidCallbackMsg (v : JSVal) : String :=
  "Invalid callback. Expected a function got " ++ jsTypeof v

/-- Message of the invalid-parse throw in findComponent. -/
def invalidParseMsg (v : JSVal) : String :=
  "Invalid component parse. Expected a function got " ++ jsTypeof v

/-- The module cache `wreq.c`: module id to module record, in registry
iteration order.  A record is a `JSVal` whose "exports" property holds the
module's exports (records may be nullish, as `!mod?.exports` allows). -/
abbrev Cache := List (String × JSVal)

/-- Exports slot of a cache record: `mod?.exports`. -/
def modExports (mod : JSVal) : JSVal := optGet mod "exports"

/-- The predicate constructor `filters.byProps(...props)`: every named
property must be defined (not undefined) on the candidate, with the
single-property fast path of the source. -/
def byProps (props : List String) : JSVal → Bool :=
  match props with
  | [p] => fun m => !isUndefinedVal (optGet m p)
  | _ => fun m => props.all fun p => !isUndefinedVal (optGet m p)

/-- Registry scan of `find` (webpack.ts lines 136-147): skip records whose
exports are falsy, return the first exports matching the filter, else the
record's truthy `exports.default` when that matches. -/
def findScan (f : JSVal → Bool) : Cache → Option JSVal
  | [] => none
  | (_, mod) :: rest =>
    let exps := modExports mod
    if !truthy exps then findScan f rest
    else if f exps then some exps
    else
      let d := getField exps "default"
      if truthy d && f d then some d
      else findScan f rest

/-- The search entry point `find(filter, { isIndirect })`: rejects
non-function filters, scans the cache, and on no match reports through
`handleModuleNotFound` unless indirect — logging always (log sink not
modelled), throwing only in the strict development configuration.
`none` models the `null` not-found sentinel. -/
def find (mode : Mode) (filter : JsArg (JSVal → Bool)) (isIndirect : Bool)
    (c : Cache) : Except JSErr (Option JSVal) :=
  match filter with
  | .notFn v => .error (.invalidArg (invalidFilterMsg v))
  | .fn f =>
    match findScan f c with
    | some v => .ok (some v)
    | none =>
      if !isIndirect && mode.isDev && !mode.devToolsOpen then
        .error (.notFound "find")
      else .ok none

/-- Registry scan of `findAll` (lines 334-343): same walk as `find` but both
the exports and a truthy matching default of one record are collected. -/
def findAllScan (f : JSVal → Bool) : Cache → List JSVal
  | [] => []
  | (_, mod) :: rest =>
    let exps := modExports mod
    if !truthy exps then findAllScan f rest
    else
      (if f exps then [exps] else []) ++
        (let d := getField exps "default"
         if truthy d && f d then [d] else []) ++
        findAllScan f rest

/-- The entry point `findAll(filter)`: rejects non-function filters and
returns every match in registry order. -/
def findAll (filter : JsArg (JSVal → Bool)) (c : Cache) :
    Except JSErr (List JSVal) :=
  match filter with
  | .notFn v => .error (.invalidArg (invalidFilterMsg v))
  | .fn f => .ok (findAllScan f c)

/-- What `waitFor` did on return: invoked the callback synchronously with
the eagerly found value, or stored the pair as a pending subscription. -/
inductive WaitForRes : Type where
  | callbackInvoked (v : JSVal)
  | subscribed

/-- Pending subscriptions `waitForSubscriptions`, in insertion order, with
callbacks of an arbitrary type `κ` (they are opaque to the registry).  The
source keeps them in a Map keyed by filter reference; the claims only ever
register fresh filter objects, for which `Map.set` is an append. -/
abbrev SubList (κ : Type) := List ((JSVal → Bool) × κ)

/-- The entry point `waitFor(filter, callback, { isIndirect })` (lines
164-178): after rejecting non-function arguments, when the cache has been
initialised it runs an indirect eager `find`; a truthy result short-circuits
into one synchronous callback invocation, otherwise the pair is stored
pending.  `oc` is `none` before `_initWebpack` has run.  The development
search-history push is diagnostics only and not modelled. -/
def waitFor {κ : Type} (mode : Mode) (filter : JsArg (JSVal → Bool))
    (callback : JsArg κ) (_isIndirect : Bool) (oc : Option Cache)
    (subs : SubList κ) : Except JSErr (WaitForRes × SubList κ) :=
  match filter with
  | .notFn v => .error (.invalidArg (invalidFilterMsg v))
  | .fn f =>
    match callback with
    | .notFn v => .error (.invalidArg (invalidCallbackMsg v))
    | .fn cb =>
      match oc with
      | some c =>
        match find mode (.fn f) true c with
        | .error e => .error e
        | .ok existing =>
          match existing with
          | some v =>
            if truthy v then .ok (.callbackInvoked v, subs)
            else .ok (.subscribed, subs ++ [(f, cb)])
          | none => .ok (.subscribed, subs ++ [(f, cb)])
      | none => .ok (.subscribed, subs ++ [(f, cb)])
  -- mode is threaded to `find` faithfully; the indirect call never throws.

/-- What `proxyInnerWaitFor` returned: the unwrapped inner value (the
eager path resolved to a non-nullish value) or the unresolved proxy. -/
inductive ProxyRes : Type where
  | innerValue (v : JSVal)
  | proxyHandle

/-- The entry point `proxyInnerWaitFor(filter, callback)` (lines 193-207):
argument checks, then `waitFor` with an indirect flag whose callback feeds
`callback(mod)` into the proxy; if the proxy's inner value is non-nullish
after that (the eager path ran), the inner value itself is returned,
otherwise the proxy handle. -/
def proxyInnerWaitFor (mode : Mode) (filter : JsArg (JSVal → Bool))
    (callback : JsArg (JSVal → JSVal)) (oc : Option Cache)
    (subs : SubList (JSVal → JSVal)) :
    Except JSErr (ProxyRes × SubList (JSVal → JSVal)) :=
  match filter with
  | .notFn v => .error (.invalidArg (invalidFilterMsg v))
  | .fn f =>
    match callback with
    | .notFn v => .error (.invalidArg (invalidCallbackMsg v))
    | .fn cb =>
      match waitFor mode (.fn f) (.fn cb) true oc subs with
      | .error e => .error e
      | .ok (.callbackInvoked v, subs2) =>
        let inner := cb v
        match inner with
        | .null => .ok (.proxyHandle, subs2)
        | .undefinedVal => .ok (.proxyHandle, subs2)
        | _ => .ok (.innerValue inner, subs2)
      | .ok (.subscribed, subs2) => .ok (.proxyHandle, subs2)

/-- Set one own property on an object's field list in JS fashion: overwrite
in place when the key exists, append otherwise. -/
def setProp (fields : List (String × JSVal)) (k : String) (v : JSVal) :
    List (String × JSVal) :=
  if fields.any (fun kv => kv.1 == k) then
    fields.map (fun kv => if kv.1 == k then (k, v) else kv)
  else fields ++ [(k, v)]

/-- Fold the source fields onto the target fields, in source order. -/
def assignFields (tf : List (String × JSVal)) :
    List (String × JSVal) → List (String × JSVal)
  | [] => tf
  | (k, v) :: rest => assignFields (setProp tf k v) rest

/-- JavaScript `Object.assign(target, source)` restricted to the modelled
values: the source's own enumerable properties are written onto an object
target, which is then returned; a primitive target is returned unchanged. -/
def objectAssign (target source : JSVal) : JSVal :=
  match target, source with
  | .obj tf, .obj sf => .obj (assignFields tf sf)
  | t, _ => t

/-- The external no-op placeholder component, an opaque value distinguished
by a marker property (reference equality with it is modelled structurally,
which the concrete inputs below never confuse). -/
def NoopComponent : JSVal := .obj [("$$noopPlaceholder", .boolVal true)]

/-- State of one lazy component handle: the mutable `InnerComponent`
binding and the own properties of the returned `WrapperComponent` object. -/
structure ComponentHandle : Type where
  inner : JSVal
  wrapperProps : List (String × JSVal)

/-- A fresh handle as `findComponent` builds it: the inner binding is the
no-op placeholder, and the wrapper carries its `$$vencordGetter` diagnostic
property (an opaque function value, modelled by a string tag). -/
def initialComponentHandle : ComponentHandle :=
  { inner := NoopComponent,
    wrapperProps := [("$$vencordGetter", .strVal "() => InnerComponent")] }

/-- Body of the subscription callback `findComponent` registers (lines
231-235): `parsedComponent = parse(v); InnerComponent = parsedComponent;
Object.assign(InnerComponent, parsedComponent)` — the assign targets the
freshly parsed component itself, not the wrapper, so `wrapperProps` is
left alone. -/
def findComponentCallback (parse : JSVal → JSVal) (v : JSVal)
    (h : ComponentHandle) : ComponentHandle :=
  let parsedComponent := parse v
  let inner2 := parsedComponent
  let inner3 := objectAssign inner2 parsedComponent
  { inner := inner3, wrapperProps := h.wrapperProps }

/-- Body of the subscription callback `findExportedComponent` registers
(lines 266-270): the same steps applied to `parse(v[newProps[0]])`. -/
def findExportedComponentCallback (props : List String)
    (parse : JSVal → JSVal) (v : JSVal) (h : ComponentHandle) :
    ComponentHandle :=
  let parsedComponent := parse (getField v (props.headD "undefined"))
  let inner2 := parsedComponent
  let inner3 := objectAssign inner2 parsedComponent
  { inner := inner3, wrapperProps := h.wrapperProps }

/-- Structural stand-in for the reference test
`InnerComponent !== NoopComponent`. -/
def isNoopComponent (v : JSVal) : Bool :=
  match v with
  | .obj [("$$noopPlaceholder", .boolVal true)] => true
  | _ => false

/-- What `findComponent` returned: the wrapper handle (target not yet
resolved) or the inner component directly (the eager path resolved it). -/
inductive ComponentRes : Type where
  | wrapperHandle (h : ComponentHandle)
  | innerDirect (v : JSVal)

/-- The entry point `findComponent(filter, parse)` (lines 215-240):
argument checks, the fresh handle, an indirect `waitFor` whose eager path
runs the resolution callback synchronously, and the final
`InnerComponent !== NoopComponent` choice of return value.  The
subscription list stores the parse function; the handle-mutating closure
around it is `findComponentCallback`. -/
def findComponent (mode : Mode) (filter : JsArg (JSVal → Bool))
    (parse : JsArg (JSVal → JSVal)) (oc : Option Cache)
    (subs : SubList (JSVal → JSVal)) :
    Except JSErr (ComponentRes × SubList (JSVal → JSVal)) :=
  match filter with
  | .notFn v => .error (.invalidArg (invalidFilterMsg v))
  | .fn f =>
    match parse with
    | .notFn v => .error (.invalidArg (invalidParseMsg v))
    | .fn p =>
      match waitFor mode (.fn f) (.fn p) true oc subs with
      | .error e => .error e
      | .ok (.callbackInvoked v, subs2) =>
        let h := findComponentCallback p v initialComponentHandle
        if isNoopComponent h.inner then .ok (.wrapperHandle h, subs2)
        else .ok (.innerDirect h.inner, subs2)
      | .ok (.subscribed, subs2) =>
        .ok (.wrapperHandle initialComponentHandle, subs2)

/-- What `findBulk` returned: the results array (with `none` for the holes
of `Array(length)` that were never written), or — on the one-filter
resilient fallback — the single result of `find`. -/
inductive BulkRes : Type where
  | bulkResults (rs : List (Option JSVal))
  | singleResult (r : Option JSVal)

/-- Inner loop of `findBulk` over one module (lines 378-394), as the source
runs it: `j` walks from 0 towards the length the argument array had on
entry (`fuel` counts the remaining iterations, so `j < length` is
`fuel > 0`), reading `filterFns[j]` from the *spliced* array — an index at
or past its current end yields undefined, and calling that is a TypeError.
A match writes `results[j]` at the current position `j`, splices the filter
out, bumps `found`, and breaks; `breakOuter` reports `++found === length`. -/
def bulkInner (n : Nat) (exps : JSVal) :
    Nat → Nat → List (JSVal → Bool) → List (Option JSVal) → Nat →
    Except JSErr
      (List (JSVal → Bool) × List (Option JSVal) × Nat × Bool)
  | 0, _, fns, results, found => .ok (fns, results, found, false)
  | fuel + 1, j, fns, results, found =>
    match fns[j]? with
    | none => .error (.typeError "filter is not a function")
    | some f =>
      if f exps then
        let results2 := results.set j (some exps)
        let fns2 := fns.eraseIdx j
        let found2 := found + 1
        .ok (fns2, results2, found2, found2 == n)
      else
        let d := getField exps "default"
        if truthy d && f d then
          let results2 := results.set j (some d)
          let fns2 := fns.eraseIdx j
          let found2 := found + 1
          .ok (fns2, results2, found2, found2 == n)
        else bulkInner n exps fuel (j + 1) fns results found

/-- Outer loop of `findBulk` (lines 373-395): walk the cache, skip records
with falsy exports, run the inner loop, and stop as soon as it reports
`break outer`. -/
def bulkOuter (n : Nat) :
    Cache → List (JSVal → Bool) → List (Option JSVal) → Nat →
    Except JSErr (List (Option JSVal) × Nat)
  | [], _, results, found => .ok (results, found)
  | (_, mod) :: rest, fns, results, found =>
    let exps := modExports mod
    if !truthy exps then bulkOuter n rest fns results found
    else
      match bulkInner n exps n 0 fns results found with
      | .error e => .error e
      | .ok (fns2, results2, found2, brk) =>
        if brk then .ok (results2, found2)
        else bulkOuter n rest fns2 results2 found2

/-- The entry point `findBulk(...filterFns)` (lines 354-409): zero filters
throw; one filter throws in a development build and otherwise falls back to
a plain (non-indirect) `find`; with two or more the splicing scan runs, and
a found-count mismatch throws in the strict configuration and is a logged
warning otherwise (the warning itself is not modelled). -/
def findBulk (mode : Mode) (filterFns : List (JSVal → Bool)) (c : Cache) :
    Except JSErr BulkRes :=
  match filterFns with
  | [] => .error (.invalidArg "Expected at least two filters.")
  | [f] =>
    if mode.isDev then
      .error (.invalidArg "bulk called with only one filter. Use find")
    else
      match find mode (.fn f) false c with
      | .error e => .error e
      | .ok r => .ok (.singleResult r)
  | f0 :: f1 :: rest =>
    let fns := f0 :: f1 :: rest
    let n := fns.length
    match bulkOuter n c fns (List.replicate n none) 0 with
    | .error e => .error e
    | .ok (results, found) =>
      if found != n then
        if mode.isDev then
          if !mode.devToolsOpen then .error (.bulkMismatch n found)
          else .ok (.bulkResults results)
        else .ok (.bulkResults results)
      else .ok (.bulkResults results)

/-- The webpack require handle this file captures as `wreq`: its module
cache `c` and its factory registry `m` (factories modelled by their
serialized source text). -/
structure WebpackRequire : Type where
  c : Cache
  m : List (String × String)

/-- Module-level mutable state of the file: the captured require handle and
the module cache, both undefined until initialisation. -/
structure WpState : Type where
  wreq : Option WebpackRequire
  cache : Option Cache

/-- The initialisation routine `_initWebpack(instance)` (lines 97-106):
throws the string "no." when the cache is already set; otherwise the pushed
probe chunk may capture the require handle (`pushResult` is what the
loader passed to the probe factory, `none` when it never ran), a missing
handle returns false, and success stores `wreq.c` as the cache. -/
def initWebpack (st : WpState) (pushResult : Option WebpackRequire) :
    Except JSErr (Bool × WpState) :=
  if st.cache.isSome then .error (.thrownString "no.")
  else
    match pushResult with
    | some r => .ok (true, { wreq := some r, cache := some r.c })
    | none =>
      match st.wreq with
      | none => .ok (false, { st with wreq := none })
      | some r => .ok (true, { wreq := some r, cache := some r.c })

/-- The factory registry `wreq.m`: module id to serialized factory source,
in registry iteration order. -/
abbrev Factories := List (String × String)

/-- Scan of `findModuleId` (lines 416-424): the first id whose factory
source includes every given code string. -/
def scanFactories (code : List String) : Factories → Option String
  | [] => none
  | (id, src) :: rest =>
    if code.all (fun cs => jsIncludes src cs) then some id
    else scanFactories code rest

/-- Events the chunk-loading path sends to the logger: a warning carrying
the attempted code filters and matcher, or a plain warning. -/
inductive LogEvent : Type where
  | warnWithFilters (msg : String)
  | warnPlain (msg : String)

/-- Warning message of the resilient `findModuleId` miss. -/
def msgNoId : String := "findModuleId: no module with the given code"

/-- The entry point `findModuleId(...code)` (lines 415-436): returns the
id of the first matching factory; on no match the error is thrown in the
strict configuration, logged as a plain warning (without the filters
payload) in a resilient one, and swallowed when devtools are open.  The
log trace is returned alongside. -/
def findModuleId (mode : Mode) (code : List String) (facs : Factories) :
    List LogEvent × Except JSErr (Option String) :=
  match scanFactories code facs with
  | some id => ([], .ok (some id))
  | none =>
    if mode.isDev then
      if !mode.devToolsOpen then
        ([], .error (.notFound "findModuleId"))
      else ([], .ok none)
    else ([.warnPlain msgNoId], .ok none)

/-- The entry point `findModuleFactory(...code)` (lines 442-447): resolve
an id, return null for a falsy id, otherwise the factory at that id.  A
factory object is always truthy, so the result distinguishes null (`none`)
from a found factory source (`some src`). -/
def findModuleFactory (mode : Mode) (code : List String)
    (facs : Factories) : List LogEvent × Except JSErr (Option String) :=
  match findModuleId mode code facs with
  | (logs, .error e) => (logs, .error e)
  | (logs, .ok idOpt) =>
    match idOpt with
    | none => (logs, .ok none)
    | some id =>
      if !truthyStr id then (logs, .ok none)
      else
        match facs.lookup id with
        | some src => (logs, .ok (some src))
        | none => (logs, .ok none)

/-- Classification of JavaScript `Number(s)` on a string, for truthiness:
NaN, zero, or a nonzero number.  The modelled fragment is the one the
captured chunk ids live in — optional surrounding whitespace, an optional
sign, and a plain decimal literal (`digits`, `digits.digits` or
`.digits`); the whitespace-only string converts to 0 and every other
unparsed string to NaN. -/
inductive NumClass : Type where
  | nanNum
  | zeroNum
  | nonzeroNum
deriving DecidableEq

/-- Digit characters of a decimal literal, or `none` when the character
list is not of the form `digits [ "." digits ]` with at least one digit. -/
def decDigits (cs : List Char) : Option (List Char) :=
  let intPart := cs.takeWhile (fun ch => ch ≠ '.')
  match cs.dropWhile (fun ch => ch ≠ '.') with
  | [] =>
    if intPart.isEmpty || !intPart.all Char.isDigit then none
    else some intPart
  | _ :: frac =>
    if !intPart.all Char.isDigit || !frac.all Char.isDigit ||
        (intPart.isEmpty && frac.isEmpty) then none
    else some (intPart ++ frac)

/-- Surrounding-whitespace trim on a character list (the whitespace
`Number` ignores). -/
def jsTrimChars (cs : List Char) : List Char :=
  ((cs.dropWhile Char.isWhitespace).reverse.dropWhile
    Char.isWhitespace).reverse

/-- The `Number(s)` truthiness class of a string. -/
def jsNumberClass (s : String) : NumClass :=
  let t := jsTrimChars s.toList
  if t.isEmpty then .zeroNum
  else
    let rest := match t with
      | '+' :: cs => cs
      | '-' :: cs => cs
      | cs => cs
    match decDigits rest with
    | none => .nanNum
    | some ds => if ds.all (fun ch => ch == '0') then .zeroNum
      else .nonzeroNum

/-- Truthiness of `Number(s)`: neither NaN nor zero. -/
def jsNumberTruthy (s : String) : Bool :=
  jsNumberClass s == .nonzeroNum

/-- A matcher regex, abstracted by its match semantics against a source
string: `none` when the pattern does not match, otherwise the first capture
group, which itself may be undefined (`some none`) when the group did not
participate.  `canonicalizeMatch` rewrites the pattern before matching and
is absorbed into this abstraction. -/
abbrev Matcher := String → Option (Option String)

/-- Whether the destructured capture `id` fails the
`!id || !Number(id)` validity test of line 505. -/
def captureInvalid (cap : Option String) : Bool :=
  match cap with
  | none => true
  | some s => !truthyStr s || !jsNumberTruthy s

/-- What `extractAndLoadChunks` resolved to: undefined, or the module
required after the chunk load — `loadedModule id` is the only outcome in
which the loader primitive `wreq.el(id)` (and then `wreq(id)`) is
invoked. -/
inductive ChunkOutcome : Type where
  | returnedUndefined
  | loadedModule (id : String)

/-- Warning message of the missing-factory branch (line 486). -/
def msgNoFactory : String :=
  "extractAndLoadChunks: missing module factory"

/-- Warning message of the failed-pattern branch (line 494). -/
def msgNoMatch : String :=
  "extractAndLoadChunks: no entry point id in module factory code"

/-- Warning message of the invalid-capture branch (line 506). -/
def msgBadId : String :=
  "extractAndLoadChunks: matcher capture missing or not a number"

/-- The entry point `extractAndLoadChunks(code, matcher)` (lines 483-518),
with its log trace: locate the owning factory (whose strict-mode not-found
throw propagates out of `findModuleFactory` before any extract-level log);
a null factory warns with the filters and returns undefined in every
configuration; a failed match or an invalid capture warns with the filters
and then throws in the strict configuration and returns undefined
otherwise; on success the chunk at the captured id is loaded and the
module required. -/
def extractAndLoadChunks (mode : Mode) (code : List String) (m : Matcher)
    (facs : Factories) : List LogEvent × Except JSErr ChunkOutcome :=
  match findModuleFactory mode code facs with
  | (logs, .error e) => (logs, .error e)
  | (logs, .ok none) =>
    (logs ++ [.warnWithFilters msgNoFactory], .ok .returnedUndefined)
  | (logs, .ok (some src)) =>
    match m src with
    | none =>
      let logs2 := logs ++ [.warnWithFilters msgNoMatch]
      if mode.isDev && !mode.devToolsOpen then
        (logs2, .error (.extractThrow msgNoMatch))
      else (logs2, .ok .returnedUndefined)
    | some cap =>
      if captureInvalid cap then
        let logs2 := logs ++ [.warnWithFilters msgBadId]
        if mode.isDev && !mode.devToolsOpen then
          (logs2, .error (.extractThrow msgBadId))
        else (logs2, .ok .returnedUndefined)
      else
        match cap with
        | some id => (logs, .ok (.loadedModule id))
        | none => (logs, .ok .returnedUndefined)
  -- the final `none` arm is unreachable: an invalid capture was handled.

/-! ## Specification-side definitions

These two predicates are stated from the words of the specification and
of claim C2 respectively, to be compared with the code-side scans; they
are the only definitions in this file not read off the source. -/

/-- Stated from the claim wording: some registry entry — its exports or
its exports.default — satisfies the predicate, with no truthiness
proviso. -/
def cacheHasMatch (P : JSVal → Bool) (c : Cache) : Bool :=
  c.any fun kv =>
    P (modExports kv.2) || P (getField (modExports kv.2) "default")

/-- Stated from the amended claim wording: some entry has truthy exports
satisfying the predicate, or truthy exports whose truthy default satisfies
it — exactly the matches the eager scan can see. -/
def cacheHasTruthyMatch (P : JSVal → Bool) (c : Cache) : Bool :=
  c.any fun kv =>
    let e := modExports kv.2
    (truthy e && P e) ||
      (truthy e && truthy (getField e "default") &&
        P (getField e "default"))

/-! ## Concrete fixtures used by the closed theorems -/

/-- Exports object holding property "a". -/
def exportsA : JSVal := .obj [("a", .numVal 1)]

/-- Exports object holding property "b". -/
def exportsB : JSVal := .obj [("b", .numVal 2)]

/-- A two-module registry: module "1" satisfies `byProps ["a"]` and module
"2" satisfies `byProps ["b"]`. -/
def bulkCache : Cache :=
  [("1", .obj [("exports", exportsA)]),
   ("2", .obj [("exports", exportsB)])]

/-- A registry whose single module has the falsy exports value 0. -/
def cacheFalsy : Cache := [("1", .obj [("exports", .numVal 0)])]

/-- A registry whose first module satisfies `byProps ["a"]` and whose
second module satisfies neither bulk filter. -/
def staleCache : Cache :=
  [("1", .obj [("exports", exportsA)]),
   ("2", .obj [("exports", .obj [("z", .numVal 3)])])]

/-- A resolved component carrying own properties. -/
def realComponent : JSVal :=
  .obj [("displayName", .strVal "RealThing"),
        ("render", .strVal "renderFn")]

/-! ## Helper lemmas about the scans -/

/-- A non-strict `find` (resilient build) never throws: it returns exactly
the scan result. -/
theorem find_resilient_ok (dto : Bool) (f : JSVal → Bool) (ind : Bool)
    (c : Cache) :
    find ⟨false, dto⟩ (.fn f) ind c = .ok (findScan f c) := by
  cases h : findScan f c <;> simp [find, h]

/-- An indirect `find` never throws in any configuration: it returns
exactly the scan result. -/
theorem find_indirect_ok (mode : Mode) (f : JSVal → Bool) (c : Cache) :
    find mode (.fn f) true c = .ok (findScan f c) := by
  cases h : findScan f c <;> simp [find, h]

/-- Every value the `find` scan returns is truthy: falsy exports are
skipped and a falsy default is never tested. -/
theorem findScan_truthy (f : JSVal → Bool) :
    ∀ c : Cache, (findScan f c).all truthy = true
  | [] => rfl
  | (_, mod) :: rest => by
    simp only [findScan]
    cases he : truthy (modExports mod)
    · simpa using findScan_truthy f rest
    · cases hf : f (modExports mod)
      · cases hd : truthy (getField (modExports mod) "default") &&
            f (getField (modExports mod) "default")
        · simpa [hf, hd] using findScan_truthy f rest
        · have : truthy (getField (modExports mod) "default") = true :=
            (Bool.and_eq_true _ _ |>.mp hd).1
          simp [hf, hd, this]
      · simp [hf, he]

/-- Every value the `find` scan returns satisfies the filter. -/
theorem findScan_sat (f : JSVal → Bool) :
    ∀ c : Cache, (findScan f c).all f = true
  | [] => rfl
  | (_, mod) :: rest => by
    simp only [findScan]
    cases he : truthy (modExports mod)
    · simpa using findScan_sat f rest
    · cases hf : f (modExports mod)
      · cases hd : truthy (getField (modExports mod) "default") &&
            f (getField (modExports mod) "default")
        · simpa [hf, hd] using findScan_sat f rest
        · have : f (getField (modExports mod) "default") = true :=
            (Bool.and_eq_true _ _ |>.mp hd).2
          simp [hf, hd, this]
      · simp [hf, he]

/-- The single-result scan returns the head of the find-all scan: `find`
is the first match in registry order, exports before default. -/
theorem findScan_eq_head (f : JSVal → Bool) :
    ∀ c : Cache, findScan f c = (findAllScan f c).head?
  | [] => rfl
  | (_, mod) :: rest => by
    simp only [findScan, findAllScan]
    cases he : truthy (modExports mod)
    · simpa using findScan_eq_head f rest
    · cases hf : f (modExports mod)
      · cases hd : truthy (getField (modExports mod) "default") &&
            f (getField (modExports mod) "default")
        · simpa [hf, hd] using findScan_eq_head f rest
        · simp [hf, hd]
      · simp [hf]

/-- Every value the find-all scan collects satisfies the filter and is
truthy. -/
theorem findAllScan_sat (f : JSVal → Bool) :
    ∀ c : Cache, (findAllScan f c).all (fun v => f v && truthy v) = true
  | [] => rfl
  | (_, mod) :: rest => by
    simp only [findAllScan]
    cases he : truthy (modExports mod)
    · simpa using findAllScan_sat f rest
    · cases hf : f (modExports mod) <;>
        cases hd : truthy (getField (modExports mod) "default") &&
          f (getField (modExports mod) "default")
      · simpa [hf, hd] using findAllScan_sat f rest
      · have h1 : truthy (getField (modExports mod) "default") = true :=
          (Bool.and_eq_true _ _ |>.mp hd).1
        have h2 : f (getField (modExports mod) "default") = true :=
          (Bool.and_eq_true _ _ |>.mp hd).2
        simpa [hf, hd, h1, h2] using findAllScan_sat f rest
      · simpa [hf, hd, he] using findAllScan_sat f rest
      · have h1 : truthy (getField (modExports mod) "default") = true :=
          (Bool.and_eq_true _ _ |>.mp hd).1
        have h2 : f (getField (modExports mod) "default") = true :=
          (Bool.and_eq_true _ _ |>.mp hd).2
        simpa [hf, hd, he, h1, h2] using findAllScan_sat f rest

/-- The scan misses exactly when no entry has a truthy match. -/
theorem findScan_isNone (f : JSVal → Bool) :
    ∀ c : Cache, (findScan f c).isNone = !(cacheHasTruthyMatch f c)
  | [] => rfl
  | (_, mod) :: rest => by
    have ih := findScan_isNone f rest
    simp only [findScan, cacheHasTruthyMatch, List.any_cons] at ih ⊢
    cases he : truthy (modExports mod) <;>
      cases hf : f (modExports mod) <;>
        cases hd : truthy (getField (modExports mod) "default") <;>
          cases hfd : f (getField (modExports mod) "default") <;>
            simp [he, hf, hd, hfd, ih]

/-- Two filters agreeing on every truthy value drive the single-result
scan identically: the scan never evaluates the filter on a falsy value. -/
theorem findScan_congr (P Q : JSVal → Bool)
    (h : ∀ v, truthy v = true → P v = Q v) :
    ∀ c : Cache, findScan P c = findScan Q c
  | [] => rfl
  | (_, mod) :: rest => by
    have ih := findScan_congr P Q h rest
    simp only [findScan]
    cases he : truthy (modExports mod)
    · simpa [he] using ih
    · have hPQ := h _ he
      cases hd : truthy (getField (modExports mod) "default")
      · simp [he, hPQ, hd, ih]
      · have hPQd := h _ hd
        simp [he, hPQ, hd, hPQd, ih]

/-- Two filters agreeing on every truthy value drive the find-all scan
identically. -/
theorem findAllScan_congr (P Q : JSVal → Bool)
    (h : ∀ v, truthy v = true → P v = Q v) :
    ∀ c : Cache, findAllScan P c = findAllScan Q c
  | [] => rfl
  | (_, mod) :: rest => by
    have ih := findAllScan_congr P Q h rest
    simp only [findAllScan]
    cases he : truthy (modExports mod)
    · simpa [he] using ih
    · have hPQ := h _ he
      cases hd : truthy (getField (modExports mod) "default")
      · simp [he, hPQ, hd, ih]
      · have hPQd := h _ hd
        simp [he, hPQ, hd, hPQd, ih]

/-! ## Claim theorems -/

/-- C1: `findBulk` does not return results aligned to input order.  On a
registry whose first module matches the first filter and whose second
module matches the second filter, the in-place splice shifts the second
filter down to index 0, so its match overwrites slot 0 and slot 1 is never
written: the call returns `[exportsB, undefined]` (in both build
configurations, silently, since the found count still reaches the filter
count) although the first matches of the two filters are `exportsA` and
`exportsB` — as the last two conjuncts exhibit — so the claimed
original-index alignment fails. -/
theorem findBulk_misalignment :
    findBulk resilientMode [byProps ["a"], byProps ["b"]] bulkCache
      = .ok (.bulkResults [some exportsB, none]) ∧
    findBulk strictMode [byProps ["a"], byProps ["b"]] bulkCache
      = .ok (.bulkResults [some exportsB, none]) ∧
    findScan (byProps ["a"]) bulkCache = some exportsA ∧
    findScan (byProps ["b"]) bulkCache = some exportsB :=
  ⟨rfl, rfl, rfl, rfl⟩

/-- A second effect of the same in-place splice of `findBulk`: once one
filter has been removed, the inner loop of a later module that matches no
remaining filter still runs `j` to the original length, reads the
undefined slot past the shortened array, and calls it — a TypeError that
escapes the whole bulk search. -/
theorem findBulk_stale_index :
    findBulk resilientMode [byProps ["a"], byProps ["b"]] staleCache
      = .error (.typeError "filter is not a function") := rfl

/-- C5: when a pending component handle resolves, the registered callback
(lines 231-235 and 266-270) replaces the inner binding but copies the
parsed component's properties onto the parsed component itself —
`Object.assign(InnerComponent, parsedComponent)` is a self-assignment —
so the previously returned wrapper object keeps exactly its initial own
properties and, contrary to the claim, never receives the new component's
properties (here, "displayName"). -/
theorem findComponent_assign_bug :
    (findComponentCallback (fun m => m) realComponent
        initialComponentHandle).inner = realComponent ∧
    (findComponentCallback (fun m => m) realComponent
        initialComponentHandle).wrapperProps
      = initialComponentHandle.wrapperProps ∧
    ((findComponentCallback (fun m => m) realComponent
        initialComponentHandle).wrapperProps.lookup "displayName") = none ∧
    (findExportedComponentCallback ["Friend"] (fun m => m)
        (.obj [("Friend", realComponent)])
        initialComponentHandle).wrapperProps
      = initialComponentHandle.wrapperProps :=
  ⟨rfl, rfl, rfl, rfl⟩

/-- C6 counterexample: `findBulk` with a single filter in the resilient
configuration is not rejected — it falls back to a plain `find` and
produces its result. -/
theorem findBulk_single_resilient_cex :
    findBulk resilientMode [byProps ["a"]] bulkCache
      = .ok (.singleResult (some exportsA)) := rfl

/-- C6 (amended): zero filters are rejected as an invalid-argument error
in both configurations; one filter is rejected in the strict development
configuration, while a resilient build falls back to a single `find` and
returns its result. -/
theorem findBulk_arity (c : Cache) (f : JSVal → Bool) (dto dto2 : Bool) :
    findBulk ⟨true, dto⟩ [] c
      = .error (.invalidArg "Expected at least two filters.") ∧
    findBulk ⟨false, dto⟩ [] c
      = .error (.invalidArg "Expected at least two filters.") ∧
    findBulk ⟨true, dto2⟩ [f] c
      = .error (.invalidArg "bulk called with only one filter. Use find") ∧
    findBulk ⟨false, dto2⟩ [f] c = .ok (.singleResult (findScan f c)) :=
  ⟨rfl, rfl, rfl, by simp [findBulk, find_resilient_ok]⟩

/-- C7: once the module cache is established, calling the initialisation
routine again throws the string "no." (so the cache is set at most once),
a successful initialisation leaves the cache set, and it can only have
succeeded from the uninitialised state. -/
theorem initWebpack_once (st st2 : WpState)
    (p p2 : Option WebpackRequire)
    (h : initWebpack st p = .ok (true, st2)) :
    st2.cache.isSome = true ∧
    initWebpack st2 p2 = .error (.thrownString "no.") ∧
    st.cache = none := by
  cases hcs : st.cache with
  | some cv => simp [initWebpack, hcs] at h
  | none =>
    cases p with
    | some r =>
      simp only [initWebpack, hcs, Option.isSome_none, Bool.false_eq_true,
        if_false, Except.ok.injEq, Prod.mk.injEq, true_and] at h
      subst h
      exact ⟨rfl, rfl, rfl⟩
    | none =>
      cases hw : st.wreq with
      | none => simp [initWebpack, hcs, hw] at h
      | some r =>
        simp only [initWebpack, hcs, hw, Option.isSome_none,
          Bool.false_eq_true, if_false, Except.ok.injEq, Prod.mk.injEq,
          true_and] at h
        subst h
        exact ⟨rfl, rfl, rfl⟩

/-- C7 witness: a fresh state initialised with a handle succeeds, and the
resulting state satisfies the conclusions at that concrete input. -/
theorem initWebpack_once_witness :
    initWebpack ⟨none, none⟩ (some ⟨[], []⟩)
      = .ok (true, ⟨some ⟨[], []⟩, some []⟩) ∧
    ((⟨some ⟨[], []⟩, some []⟩ : WpState).cache.isSome = true ∧
      initWebpack ⟨some ⟨[], []⟩, some []⟩ none
        = .error (.thrownString "no.") ∧
      (⟨none, none⟩ : WpState).cache = none) :=
  ⟨rfl, initWebpack_once ⟨none, none⟩ ⟨some ⟨[], []⟩, some []⟩
    (some ⟨[], []⟩) none rfl⟩

/-- C8: a non-function value in the filter (or callback/parse) slot of
`find`, `findAll`, `waitFor`, `findComponent` or `proxyInnerWaitFor` is
rejected with the synchronous invalid-argument throw in every
configuration, before any scan or subscription: the error is the same for
every cache and subscription state, and the subscription list is
untouched.  In this embedding `JsArg.notFn` carries exactly the values
whose `typeof` is not "function". -/
theorem invalid_args_throw (mode : Mode) (v : JSVal) (ind : Bool)
    (c : Cache) (oc : Option Cache) (cb : Nat) (f : JSVal → Bool)
    (subs : SubList Nat) (p : JSVal → JSVal)
    (subsC : SubList (JSVal → JSVal)) :
    find mode (.notFn v) ind c
      = .error (.invalidArg (invalidFilterMsg v)) ∧
    findAll (.notFn v) c = .error (.invalidArg (invalidFilterMsg v)) ∧
    waitFor mode (.notFn v) (.fn cb) ind oc subs
      = .error (.invalidArg (invalidFilterMsg v)) ∧
    waitFor mode (.fn f) (.notFn v) ind oc subs
      = .error (.invalidArg (invalidCallbackMsg v)) ∧
    findComponent mode (.notFn v) (.fn p) oc subsC
      = .error (.invalidArg (invalidFilterMsg v)) ∧
    findComponent mode (.fn f) (.notFn v) oc subsC
      = .error (.invalidArg (invalidParseMsg v)) ∧
    proxyInnerWaitFor mode (.notFn v) (.fn p) oc subsC
      = .error (.invalidArg (invalidFilterMsg v)) ∧
    proxyInnerWaitFor mode (.fn f) (.notFn v) oc subsC
      = .error (.invalidArg (invalidCallbackMsg v)) :=
  ⟨rfl, rfl, rfl, rfl, rfl, rfl, rfl, rfl⟩

/-- C2 counterexample: on a registry whose only module has the falsy
exports value 0, the constant-true predicate is satisfied by that entry's
exports, yet `find` (resilient, so it returns rather than throws)
produces the not-found sentinel — the claimed "not-found iff no entry
satisfies P" equivalence fails, because entries with falsy exports are
skipped without ever testing the predicate. -/
theorem find_membership_cex :
    find resilientMode (.fn (fun _ => true)) false cacheFalsy
      = .ok none ∧
    cacheHasMatch (fun _ => true) cacheFalsy = true := ⟨rfl, rfl⟩

/-- C2 (amended): in a resilient configuration `find(P)` returns the first
match of the registry walk — each entry's truthy exports tested first,
then its truthy default — every returned value satisfies P (and is
truthy), and the not-found sentinel comes back exactly when no entry has
truthy exports satisfying P nor truthy exports with a truthy default
satisfying P. -/
theorem find_first_match (P : JSVal → Bool) (c : Cache) :
    find resilientMode (.fn P) false c = .ok ((findAllScan P c).head?) ∧
    (findAllScan P c).all (fun v => P v && truthy v) = true ∧
    ((findAllScan P c).head?.isNone = !(cacheHasTruthyMatch P c)) := by
  refine ⟨?_, findAllScan_sat P c, ?_⟩
  · rw [show resilientMode = ⟨false, false⟩ from rfl, find_resilient_ok,
      findScan_eq_head]
  · rw [← findScan_eq_head, findScan_isNone]

/-- C3 counterexample: with the registry populated by a module whose falsy
exports value satisfies the predicate, `waitFor` does not invoke the
callback — it stores the pair as a pending subscription, although the
claim requires a synchronous invocation whenever some loaded module
satisfies P. -/
theorem waitFor_falsy_cex :
    waitFor resilientMode (.fn (fun _ => true)) (.fn (0 : Nat)) false
        (some cacheFalsy) []
      = .ok (.subscribed, [(fun _ => true, 0)]) ∧
    cacheHasMatch (fun _ => true) cacheFalsy = true := ⟨rfl, rfl⟩

/-- C3 (amended): when the registry is initialised and the eager scan
finds a value — a module with truthy exports satisfying P, or a truthy
default satisfying P — `waitFor` invokes the callback exactly once,
synchronously, with that value (which satisfies P) and stores nothing;
otherwise (no eager match, or the cache not yet initialised) it stores
the (P, callback) pair as a pending subscription. -/
theorem waitFor_spec (P : JSVal → Bool) (cb : Nat) (oc : Option Cache)
    (subs : SubList Nat) :
    waitFor resilientMode (.fn P) (.fn cb) false oc subs =
      .ok (match oc.bind (findScan P) with
        | some v => (WaitForRes.callbackInvoked v, subs)
        | none => (WaitForRes.subscribed, subs ++ [(P, cb)])) ∧
    (oc.bind (findScan P)).all P = true ∧
    (oc.bind (findScan P)).all truthy = true := by
  cases oc with
  | none => exact ⟨rfl, rfl, rfl⟩
  | some c =>
    refine ⟨?_, by simpa using findScan_sat P c,
      by simpa using findScan_truthy P c⟩
    cases hs : findScan P c with
    | none => simp [waitFor, find_indirect_ok, hs]
    | some v =>
      have ht : truthy v = true := by
        have := findScan_truthy P c
        rw [hs] at this
        simpa using this
      simp [waitFor, find_indirect_ok, hs, ht]

/-- C10: `find` and `findAll` never evaluate the predicate on a falsy
exports value or a falsy default — two predicates agreeing on all truthy
values are indistinguishable to them, in every configuration — and the
value `find` returns, when one is returned, is always truthy (with the
resilient wrapper returning exactly the scan result, so its only other
answer is the null sentinel).  In particular a module satisfiable only
through a falsy export is never matched. -/
theorem search_skips_falsy (P Q : JSVal → Bool)
    (hagree : ∀ v, truthy v = true → P v = Q v) (mode : Mode) (ind : Bool)
    (c : Cache) :
    find mode (.fn P) ind c = find mode (.fn Q) ind c ∧
    findAll (.fn P) c = findAll (.fn Q) c ∧
    (findScan P c).all truthy = true ∧
    find resilientMode (.fn P) false c = .ok (findScan P c) := by
  refine ⟨?_, ?_, findScan_truthy P c, find_resilient_ok false P false c⟩
  · simp only [find, findScan_congr P Q hagree]
  · simp only [findAll, findAllScan_congr P Q hagree]

/-- C10 witness: the constant-true predicate and `truthy` agree on truthy
values, and the conclusions hold at that concrete pair over the
falsy-exports registry. -/
theorem search_skips_falsy_witness :
    (∀ v, truthy v = true → (fun _ => true) v = truthy v) ∧
    (find strictMode (.fn (fun _ => true)) false cacheFalsy
        = find strictMode (.fn truthy) false cacheFalsy ∧
      findAll (.fn (fun _ => true)) cacheFalsy
        = findAll (.fn truthy) cacheFalsy ∧
      (findScan (fun _ => true) cacheFalsy).all truthy = true ∧
      find resilientMode (.fn (fun _ => true)) false cacheFalsy
        = .ok (findScan (fun _ => true) cacheFalsy)) :=
  ⟨fun _ h => h.symm,
    search_skips_falsy (fun _ => true) truthy (fun _ h => h.symm)
      strictMode false cacheFalsy⟩

/-- C4 counterexample: in the strict configuration with no factory
matching the code filters, `extractAndLoadChunks` neither logs the
attempted filters/matcher nor returns undefined — the not-found throw of
the inner `findModuleId` escapes first, with an empty log trace. -/
theorem extract_missing_factory_cex :
    extractAndLoadChunks strictMode ["x"] (fun _ => none) []
      = ([], .error (.notFound "findModuleId")) := rfl

/-- C4 (amended): the pattern-failure and invalid-capture cases log the
attempted filters/matcher and return undefined in a resilient build, and
log then throw in the strict configuration; the missing-factory case logs
the filters/matcher and returns undefined in a resilient build, but in
the strict configuration the inner module-id search throws its own
not-found error before any extract-level filters/matcher log. -/
theorem extract_failure_modes
    (code1 code2 code3 : List String) (m1 m2 m3 : Matcher)
    (f1 f2 f3 : Factories) (id2 src2 id3 src3 : String)
    (cap : Option String) (dto : Bool)
    (h1 : scanFactories code1 f1 = none)
    (h2a : scanFactories code2 f2 = some id2)
    (h2b : truthyStr id2 = true)
    (h2c : f2.lookup id2 = some src2)
    (h2d : m2 src2 = none)
    (h3a : scanFactories code3 f3 = some id3)
    (h3b : truthyStr id3 = true)
    (h3c : f3.lookup id3 = some src3)
    (h3d : m3 src3 = some cap)
    (h3e : captureInvalid cap = true) :
    extractAndLoadChunks ⟨false, dto⟩ code1 m1 f1
      = ([.warnPlain msgNoId, .warnWithFilters msgNoFactory],
          .ok .returnedUndefined) ∧
    extractAndLoadChunks strictMode code1 m1 f1
      = ([], .error (.notFound "findModuleId")) ∧
    extractAndLoadChunks ⟨false, dto⟩ code2 m2 f2
      = ([.warnWithFilters msgNoMatch], .ok .returnedUndefined) ∧
    extractAndLoadChunks strictMode code2 m2 f2
      = ([.warnWithFilters msgNoMatch], .error (.extractThrow msgNoMatch)) ∧
    extractAndLoadChunks ⟨false, dto⟩ code3 m3 f3
      = ([.warnWithFilters msgBadId], .ok .returnedUndefined) ∧
    extractAndLoadChunks strictMode code3 m3 f3
      = ([.warnWithFilters msgBadId], .error (.extractThrow msgBadId)) := by
  refine ⟨?_, ?_, ?_, ?_, ?_, ?_⟩
  · simp [extractAndLoadChunks, findModuleFactory, findModuleId, h1]
  · simp [extractAndLoadChunks, findModuleFactory, findModuleId, h1,
      strictMode]
  · simp [extractAndLoadChunks, findModuleFactory, findModuleId,
      h2a, h2b, h2c, h2d]
  · simp [extractAndLoadChunks, findModuleFactory, findModuleId,
      h2a, h2b, h2c, h2d, strictMode]
  · simp [extractAndLoadChunks, findModuleFactory, findModuleId,
      h3a, h3b, h3c, h3d, h3e]
  · simp [extractAndLoadChunks, findModuleFactory, findModuleId,
      h3a, h3b, h3c, h3d, h3e, strictMode]

/-- C4 witness: the hypotheses hold at concrete inputs for all three
failure cases, and the invalid-capture strict conclusion is exhibited. -/
theorem extract_failure_modes_witness :
    scanFactories ["x"] [] = none ∧
    extractAndLoadChunks strictMode [] (fun _ => some (some "0"))
        [("1", "src3")]
      = ([.warnWithFilters msgBadId], .error (.extractThrow msgBadId)) :=
  ⟨rfl,
    (extract_failure_modes ["x"] [] [] (fun _ => none) (fun _ => none)
        (fun _ => some (some "0")) [] [("1", "src2")] [("1", "src3")]
        "1" "src2" "1" "src3" (some "0") false
        rfl rfl rfl rfl rfl rfl rfl rfl rfl rfl).2.2.2.2.2⟩

/-- C9 counterexample: with the matcher capturing the well-formed numeric
string "0", the strict configuration does not return undefined — it
throws after logging — so the claim's unconditional "returns undefined"
fails (the loader is still never invoked). -/
theorem extract_zero_strict_cex :
    extractAndLoadChunks strictMode [] (fun _ => some (some "0"))
        [("1", "src")]
      = ([.warnWithFilters msgBadId], .error (.extractThrow msgBadId)) ∧
    jsNumberClass "0" = .zeroNum := ⟨rfl, rfl⟩

/-- C9 (amended): for every captured chunk id string whose `Number`
conversion is 0 or NaN — including the literal "0" — the capture is
treated as invalid because validity is the truthiness of the converted
number: a resilient build logs and resolves to undefined, the strict
configuration logs and throws, and in neither is the load-chunk
primitive invoked (`ChunkOutcome.loadedModule` is the only outcome that
invokes it). -/
theorem extract_untruthy_id (s id src : String) (code : List String)
    (facs : Factories) (m : Matcher) (dto : Bool)
    (hnum : jsNumberClass s ≠ NumClass.nonzeroNum)
    (hscan : scanFactories code facs = some id)
    (hid : truthyStr id = true)
    (hlook : facs.lookup id = some src)
    (hm : m src = some (some s)) :
    extractAndLoadChunks ⟨false, dto⟩ code m facs
      = ([.warnWithFilters msgBadId], .ok .returnedUndefined) ∧
    extractAndLoadChunks strictMode code m facs
      = ([.warnWithFilters msgBadId], .error (.extractThrow msgBadId)) := by
  have hbad : captureInvalid (some s) = true := by
    have : (jsNumberClass s == NumClass.nonzeroNum) = false :=
      beq_eq_false_iff_ne.mpr hnum
    simp [captureInvalid, jsNumberTruthy, this]
  constructor
  · simp [extractAndLoadChunks, findModuleFactory, findModuleId,
      hscan, hid, hlook, hm, hbad]
  · simp [extractAndLoadChunks, findModuleFactory, findModuleId,
      hscan, hid, hlook, hm, hbad, strictMode]

/-- C9 witness: the hypotheses hold at the concrete capture "0" with a
one-factory registry, and both conclusions are exhibited there. -/
theorem extract_untruthy_id_witness :
    jsNumberClass "0" ≠ NumClass.nonzeroNum ∧
    (extractAndLoadChunks ⟨false, false⟩ []
        (fun _ => some (some "0")) [("1", "srcW")]
      = ([.warnWithFilters msgBadId], .ok .returnedUndefined) ∧
    extractAndLoadChunks strictMode [] (fun _ => some (some "0"))
        [("1", "srcW")]
      = ([.warnWithFilters msgBadId], .error (.extractThrow msgBadId))) :=
  ⟨by decide,
    extract_untruthy_id "0" "1" "srcW" [] [("1", "srcW")]
      (fun _ => some (some "0")) false (by decide) rfl rfl rfl rfl⟩

end Vencord
